import Mathlib

/-!
Verification of the evaluation harness of python-chebai: the class-vocabulary
aligner, the batched inference runner (`evaluate_model` of
`tutorials/process_results_old_chebi.ipynb`), the metrics reporter, and the
CI constant-verification step.  Source code is embedded shallowly: Python
lists become Lean lists, torch row tensors become `List` rows, fallible torch
operations (boolean indexing with mismatched shapes, `torch.cat` of an empty
list) return `Option`.
-/

namespace ChebaiEval

/-! ## Class-vocabulary aligner

From `tutorials/process_results_old_chebi.ipynb`:
```python
common_classes = []
for v200_class in v200_classes:
    if v200_class in v148_classes:
        common_classes.append(v200_class)
common_classes_mask_v200 = torch.tensor([[c in common_classes for c in v200_classes]])
common_classes_mask_v148 = torch.tensor([[c in common_classes for c in v148_classes]])
```
-/

/-- The loop that collects the classes of `vA` that also occur in `vB`,
in `vA`'s order (appending to an initially empty list). -/
def common_classes (vA vB : List String) : List String :=
  vA.foldl (fun acc c => if c ∈ vB then acc ++ [c] else acc) []

/-- The membership mask `[c in common for c in classes]`. -/
def common_classes_mask (classes common : List String) : List Bool :=
  classes.map (fun c => decide (c ∈ common))

/-- Python `file.readlines()` on the file's whole text: split after every
newline character, keeping the `\n` terminator on each line; a final segment
without a trailing newline is kept as a last line (if non-empty). -/
def readlinesAux (acc : List Char) : List Char → List String
  | [] => if acc = [] then [] else [⟨acc.reverse⟩]
  | c :: cs =>
      if c = '\n' then ⟨(c :: acc).reverse⟩ :: readlinesAux [] cs
      else readlinesAux (c :: acc) cs

/-- Python `file.readlines()` as a function of the file contents. -/
def readlines (s : String) : List String :=
  readlinesAux [] s.data

/-- The loop of `common_classes` is `filter`: folding append-if-member over
`vA` starting from `acc` yields `acc ++ vA.filter (· ∈ vB)`. -/
theorem common_classes_foldl_eq (vA vB : List String) (acc : List String) :
    vA.foldl (fun acc c => if c ∈ vB then acc ++ [c] else acc) acc
      = acc ++ vA.filter (fun c => decide (c ∈ vB)) := by
  induction vA generalizing acc with
  | nil => simp
  | cons a l ih =>
      by_cases h : a ∈ vB
      · simp [List.foldl_cons, h, ih, List.filter_cons]
      · simp [List.foldl_cons, h, ih, List.filter_cons]

/-- The function `common_classes` equals the list comprehension `[x for x in A if x in B]`. -/
theorem common_classes_eq_filter (vA vB : List String) :
    common_classes vA vB = vA.filter (fun c => decide (c ∈ vB)) := by
  simpa using common_classes_foldl_eq vA vB []

/-- C1. Vocabulary aligner contract: `common_classes A B` is
`[x for x in A if x in B]` (the elements of A that occur in B, in A's order),
and the two masks satisfy `mask_A[i] = (A[i] in common)` and
`mask_B[i] = (B[i] in common)` at every index of A resp. B. -/
theorem aligner_contract (A B : List String) :
    common_classes A B = A.filter (fun c => decide (c ∈ B)) ∧
    (∀ i, (common_classes_mask A (common_classes A B)).get? i
        = (A.get? i).map (fun c => decide (c ∈ common_classes A B))) ∧
    (∀ i, (common_classes_mask B (common_classes A B)).get? i
        = (B.get? i).map (fun c => decide (c ∈ common_classes A B))) := by
  refine ⟨common_classes_eq_filter A B, ?_, ?_⟩
  · intro i
    simp [common_classes_mask]
  · intro i
    simp [common_classes_mask]

/-- Membership in `common_classes A B`: exactly the strings occurring in both
`A` and `B`. -/
theorem mem_common_classes {A B : List String} {x : String} :
    x ∈ common_classes A B ↔ x ∈ A ∧ x ∈ B := by
  rw [common_classes_eq_filter]
  simp

/-- The number of `true` entries of a membership mask is the number of
positions of `classes` whose entry lies in `common`. -/
theorem count_true_mask (classes common : List String) :
    (common_classes_mask classes common).count true
      = classes.countP (fun c => decide (c ∈ common)) := by
  unfold common_classes_mask
  rw [List.count_eq_countP, List.countP_map]
  apply List.countP_congr
  intro x _
  simp [Function.comp]

/-- C2 counterexample: with the duplicate-containing vocabularies
`A = ["a", "a"]` and `B = ["a"]`, the popcount of `mask_B` is 1 while
`common` has length 2, so `sum(mask_B) = len(common)` fails as stated. -/
theorem popcount_maskB_cex :
    (common_classes_mask ["a"] (common_classes ["a", "a"] ["a"])).count true
      ≠ (common_classes ["a", "a"] ["a"]).length := by
  decide

/-- C2 (amended). For duplicate-free vocabularies `A` and `B`:
`common_classes A B` is a subset of both `A` and `B`, and the popcounts of
both masks equal `len(common)`; in particular, whenever `len(common) = 701`
(as for the size-854 and size-709 vocabularies of the notebook) both masks
have popcount 701.  (The popcount of `mask_A` needs no hypothesis; the
popcount of `mask_B` needs both vocabularies duplicate-free.) -/
theorem aligner_subset_and_popcounts (A B : List String)
    (hA : A.Nodup) (hB : B.Nodup) :
    (∀ x ∈ common_classes A B, x ∈ A) ∧
    (∀ x ∈ common_classes A B, x ∈ B) ∧
    (common_classes_mask A (common_classes A B)).count true
      = (common_classes A B).length ∧
    (common_classes_mask B (common_classes A B)).count true
      = (common_classes A B).length := by
  refine ⟨fun x hx => (mem_common_classes.mp hx).1,
          fun x hx => (mem_common_classes.mp hx).2, ?_, ?_⟩
  · rw [count_true_mask, common_classes_eq_filter, List.countP_eq_length_filter]
    congr 1
    apply List.filter_congr
    intro x hx
    simp [mem_common_classes, common_classes_eq_filter, hx]
  · rw [count_true_mask, List.countP_eq_length_filter]
    have hfB : B.filter (fun c => decide (c ∈ common_classes A B))
        = B.filter (fun c => decide (c ∈ A)) := by
      apply List.filter_congr
      intro x hx
      simp [mem_common_classes, hx]
    rw [hfB, common_classes_eq_filter]
    have h1 : (B.filter (fun c => decide (c ∈ A))).Nodup := hB.filter _
    have h2 : (A.filter (fun c => decide (c ∈ B))).Nodup := hA.filter _
    have hperm : List.Perm (B.filter (fun c => decide (c ∈ A)))
        (A.filter (fun c => decide (c ∈ B))) := by
      rw [List.perm_ext_iff_of_nodup h1 h2]
      intro a
      simp
      tauto
    exact hperm.length_eq

/-- Witness for C2 at concrete duplicate-free vocabularies. -/
theorem aligner_subset_and_popcounts_witness :
    (∀ x ∈ common_classes ["a", "b", "c"] ["b", "c", "d"], x ∈ ["a", "b", "c"]) ∧
    (∀ x ∈ common_classes ["a", "b", "c"] ["b", "c", "d"], x ∈ ["b", "c", "d"]) ∧
    (common_classes_mask ["a", "b", "c"]
        (common_classes ["a", "b", "c"] ["b", "c", "d"])).count true
      = (common_classes ["a", "b", "c"] ["b", "c", "d"]).length ∧
    (common_classes_mask ["b", "c", "d"]
        (common_classes ["a", "b", "c"] ["b", "c", "d"])).count true
      = (common_classes ["a", "b", "c"] ["b", "c", "d"]).length :=
  aligner_subset_and_popcounts ["a", "b", "c"] ["b", "c", "d"]
    (by decide) (by decide)

/-! ## Torch primitives used by `evaluate_model`

A tensor of shape `(1, C)` is embedded as a single row `List α`; an
accumulated tensor of shape `(N, C)` as a `List` of `N` rows.  Boolean mask
indexing `t[mask]` keeps the entries at `true` positions and raises a shape
error when the mask's length differs from the tensor's; `torch.cat` raises on
an empty list and on rows of unequal width.  Fallible operations return
`Option`, `none` standing for the raised error. -/

/-- The entries of `v` at the `true` positions of `mask` (shape-agnostic
selection core of `t[mask]`). -/
def selectMask {α : Type} (mask : List Bool) (v : List α) : List α :=
  ((v.zip mask).filter (fun p => p.2)).map (fun p => p.1)

/-- Boolean indexing `t[mask]` with torch's shape check: an error (`none`) unless the mask's
length equals the tensor's. -/
def torchBoolIndex {α : Type} (mask : List Bool) (v : List α) : Option (List α) :=
  if v.length = mask.length then some (selectMask mask v) else none

/-- The operation `torch.cat` on a list of `(1, w)` rows: errors on the empty list and on
width mismatch, otherwise stacks the rows. -/
def torchCat {α : Type} : List (List α) → Option (List (List α))
  | [] => none
  | r :: rs => if rs.all (fun x => x.length == r.length) then some (r :: rs) else none

/-! ## `evaluate_model` (tutorials/process_results_old_chebi.ipynb)

```python
for row in tqdm.tqdm(data_list):
    ...
    preds, labels = model._get_prediction_and_labels(...)
    if common_classes_mask is not None:
        preds = preds[common_classes_mask]
        labels = labels[common_classes_mask]
        preds_list.append(preds.unsqueeze(0))
        labels_list.append(labels.unsqueeze(0))
    else:
        preds_list.append(preds)
        labels_list.append(labels)
test_preds = torch.cat(preds_list)
test_labels = torch.cat(labels_list)
```
The model pipeline (`_process_batch`, forward, `_get_prediction_and_labels`)
is abstracted as a function `run` from an example to its prediction row and
label row. -/

/-- The accumulation loop of `evaluate_model`: per example, obtain the
prediction/label rows, optionally mask-filter both, and collect them in
order.  A masking failure aborts (`none`), as the Python exception would. -/
def runExamples {ε α : Type} (run : ε → List α × List α)
    (mask : Option (List Bool)) : List ε → Option (List (List α) × List (List α))
  | [] => some ([], [])
  | e :: es => do
      let pl := run e
      let pr ←
        match mask with
        | none => some pl
        | some m => do
            let p ← torchBoolIndex m pl.1
            let l ← torchBoolIndex m pl.2
            pure (p, l)
      let rest ← runExamples run mask es
      pure (pr.1 :: rest.1, pr.2 :: rest.2)

/-- The function `evaluate_model`: run the accumulation loop, then `torch.cat` both row
lists into the returned tensors. -/
def evaluateModel {ε α : Type} (run : ε → List α × List α)
    (mask : Option (List Bool)) (dataList : List ε) :
    Option (List (List α) × List (List α)) := do
  let pls ← runExamples run mask dataList
  let tp ← torchCat pls.1
  let tl ← torchCat pls.2
  pure (tp, tl)

/-- The prediction/label rows example `e` contributes: the model output,
mask-filtered when a mask is supplied. -/
def appliedRow {ε α : Type} (run : ε → List α × List α)
    (mask : Option (List Bool)) (e : ε) : List α × List α :=
  match mask with
  | none => run e
  | some m => (selectMask m (run e).1, selectMask m (run e).2)

/-- Number of selected classes: the mask's popcount when a mask is supplied,
the full class count otherwise. -/
def selectedCount (C : ℕ) (mask : Option (List Bool)) : ℕ :=
  match mask with
  | none => C
  | some m => m.count true

theorem selectMask_cons {α : Type} (b : Bool) (t : List Bool) (a : α) (w : List α) :
    selectMask (b :: t) (a :: w)
      = if b then a :: selectMask t w else selectMask t w := by
  cases b <;> simp [selectMask]

theorem selectMask_length {α : Type} (m : List Bool) (v : List α)
    (h : v.length = m.length) : (selectMask m v).length = m.count true := by
  induction m generalizing v with
  | nil =>
      cases v with
      | nil => rfl
      | cons a w => simp at h
  | cons b t ih =>
      cases v with
      | nil => simp at h
      | cons a w =>
          simp only [List.length_cons, Nat.add_right_cancel_iff] at h
          cases b with
          | false => simp [selectMask_cons, List.count_cons, ih w h]
          | true => simp [selectMask_cons, List.count_cons, ih w h]

theorem selectMask_self (m : List Bool) :
    selectMask m m = List.replicate (m.count true) true := by
  induction m with
  | nil => rfl
  | cons b t ih =>
      cases b with
      | false => simpa [selectMask_cons, List.count_cons] using ih
      | true => simp [selectMask_cons, List.count_cons, ih, List.replicate_succ]

theorem selectMask_all_true {α : Type} (n : ℕ) (w : List α) (h : w.length = n) :
    selectMask (List.replicate n true) w = w := by
  induction n generalizing w with
  | zero =>
      cases w with
      | nil => rfl
      | cons a t => simp at h
  | succ k ih =>
      cases w with
      | nil => simp at h
      | cons a t =>
          simp only [List.length_cons, Nat.add_right_cancel_iff] at h
          simp [List.replicate_succ, selectMask_cons, ih t h]

/-- C4 counterexample: re-applying the full-length mask `[true, false]` to
the already-filtered vector is a shape error (`none`), not a no-op. -/
theorem remask_filtered_vector_cex :
    torchBoolIndex [true, false] (selectMask [true, false] [(1 : ℕ), 2])
      ≠ some (selectMask [true, false] [(1 : ℕ), 2]) := by
  decide

/-- C4 (amended). Applying the restriction of `mask` to its own selected
positions (torch's `mask[mask]`, an all-true mask of the filtered length) to a
vector already filtered by `mask` is a no-op; applying `mask` itself to the
filtered vector is a shape error whenever `mask` excludes some position. -/
theorem mask_restricted_idempotent {α : Type} (m : List Bool) (v : List α)
    (h : v.length = m.length) :
    torchBoolIndex (selectMask m m) (selectMask m v) = some (selectMask m v) ∧
    (false ∈ m → torchBoolIndex m (selectMask m v) = none) := by
  have hlen : (selectMask m v).length = m.count true := selectMask_length m v h
  constructor
  · unfold torchBoolIndex
    rw [selectMask_self, if_pos (by simp [hlen]), selectMask_all_true _ _ hlen]
  · intro hf
    unfold torchBoolIndex
    rw [if_neg]
    rw [hlen]
    intro hc
    have := List.count_eq_length.mp hc false hf
    exact Bool.true_eq_false.mp this

/-- Witness for C4 at the mask `[true, false]` and the vector `[1, 2]`. -/
theorem mask_restricted_idempotent_witness :
    torchBoolIndex (selectMask [true, false] [true, false])
        (selectMask [true, false] [(1 : ℕ), 2])
      = some (selectMask [true, false] [(1 : ℕ), 2]) ∧
    torchBoolIndex [true, false] (selectMask [true, false] [(1 : ℕ), 2]) = none :=
  ⟨(mask_restricted_idempotent [true, false] [(1 : ℕ), 2] (by decide)).1,
   (mask_restricted_idempotent [true, false] [(1 : ℕ), 2] (by decide)).2 (by decide)⟩

/-- Both rows an example contributes have the selected-class width, given
that the model emits rows of width `C` and the mask (if any) has length `C`. -/
theorem appliedRow_length {ε α : Type} (C : ℕ) (run : ε → List α × List α)
    (mask : Option (List Bool)) (e : ε)
    (hrun : (run e).1.length = C ∧ (run e).2.length = C)
    (hmask : ∀ m, mask = some m → m.length = C) :
    (appliedRow run mask e).1.length = selectedCount C mask ∧
    (appliedRow run mask e).2.length = selectedCount C mask := by
  cases mask with
  | none => exact ⟨hrun.1, hrun.2⟩
  | some m =>
      have hm : m.length = C := hmask m rfl
      exact ⟨selectMask_length m _ (hrun.1.trans hm.symm),
             selectMask_length m _ (hrun.2.trans hm.symm)⟩

/-- The accumulation loop succeeds and produces exactly the per-example rows,
in order. -/
theorem runExamples_eq {ε α : Type} (C : ℕ) (run : ε → List α × List α)
    (mask : Option (List Bool)) (l : List ε)
    (hrun : ∀ e, (run e).1.length = C ∧ (run e).2.length = C)
    (hmask : ∀ m, mask = some m → m.length = C) :
    runExamples run mask l
      = some (l.map (fun e => (appliedRow run mask e).1),
              l.map (fun e => (appliedRow run mask e).2)) := by
  induction l with
  | nil => rfl
  | cons e es ih =>
      cases mask with
      | none =>
          simp [runExamples, ih, appliedRow]
      | some m =>
          have hm : m.length = C := hmask m rfl
          have h1 : torchBoolIndex m (run e).1 = some (selectMask m (run e).1) := by
            unfold torchBoolIndex
            rw [if_pos ((hrun e).1.trans hm.symm)]
          have h2 : torchBoolIndex m (run e).2 = some (selectMask m (run e).2) := by
            unfold torchBoolIndex
            rw [if_pos ((hrun e).2.trans hm.symm)]
          simp [runExamples, h1, h2, ih, appliedRow]

/-- The operation `torch.cat` succeeds on a non-empty stack of rows of one common width. -/
theorem torchCat_of_uniform {α : Type} (rows : List (List α)) (w : ℕ)
    (hne : rows ≠ []) (h : ∀ r ∈ rows, r.length = w) :
    torchCat rows = some rows := by
  cases rows with
  | nil => exact absurd rfl hne
  | cons r rs =>
      simp only [torchCat]
      rw [if_pos]
      rw [List.all_eq_true]
      intro x hx
      have hxw : x.length = w := h x (List.mem_cons_of_mem r hx)
      have hrw : r.length = w := h r (List.mem_cons_self r rs)
      simp [hxw, hrw]

/-- C3 counterexample: on the empty example list, `evaluate_model` raises in
the accumulation step (`torch.cat` of an empty list) instead of returning a
pair of 0-row tensors. -/
theorem evaluate_model_empty_cex :
    evaluateModel (fun _ : ℕ => (([1], [1]) : List ℕ × List ℕ)) none ([] : List ℕ)
      = none := rfl

/-- C3 (amended). For every non-empty example list, with or without a mask,
`evaluate_model` returns two tensors with one row per example, row `i`
corresponding to example `i`, and with as many columns as there are selected
classes (the mask's popcount when a mask is supplied, the full class count
otherwise). -/
theorem evaluate_model_shape {ε α : Type} (C : ℕ) (run : ε → List α × List α)
    (mask : Option (List Bool)) (l : List ε)
    (hrun : ∀ e, (run e).1.length = C ∧ (run e).2.length = C)
    (hmask : ∀ m, mask = some m → m.length = C)
    (hne : l ≠ []) :
    ∃ P L, evaluateModel run mask l = some (P, L) ∧
      P.length = l.length ∧ L.length = l.length ∧
      (∀ i, P.get? i = (l.get? i).map (fun e => (appliedRow run mask e).1)) ∧
      (∀ i, L.get? i = (l.get? i).map (fun e => (appliedRow run mask e).2)) ∧
      (∀ r ∈ P, r.length = selectedCount C mask) ∧
      (∀ r ∈ L, r.length = selectedCount C mask) := by
  refine ⟨l.map (fun e => (appliedRow run mask e).1),
          l.map (fun e => (appliedRow run mask e).2), ?_, by simp, by simp,
          ?_, ?_, ?_, ?_⟩
  · have hP : ∀ r ∈ l.map (fun e => (appliedRow run mask e).1),
        r.length = selectedCount C mask := by
      intro r hr
      obtain ⟨e, _, rfl⟩ := List.mem_map.mp hr
      exact (appliedRow_length C run mask e (hrun e) hmask).1
    have hL : ∀ r ∈ l.map (fun e => (appliedRow run mask e).2),
        r.length = selectedCount C mask := by
      intro r hr
      obtain ⟨e, _, rfl⟩ := List.mem_map.mp hr
      exact (appliedRow_length C run mask e (hrun e) hmask).2
    have hrE := runExamples_eq C run mask l hrun hmask
    have hcP := torchCat_of_uniform (l.map fun e => (appliedRow run mask e).1)
      (selectedCount C mask) (by simpa using hne) hP
    have hcL := torchCat_of_uniform (l.map fun e => (appliedRow run mask e).2)
      (selectedCount C mask) (by simpa using hne) hL
    simp [evaluateModel, hrE, hcP, hcL]
  · intro i
    simp [List.get?_map]
  · intro i
    simp [List.get?_map]
  · intro r hr
    obtain ⟨e, _, rfl⟩ := List.mem_map.mp hr
    exact (appliedRow_length C run mask e (hrun e) hmask).1
  · intro r hr
    obtain ⟨e, _, rfl⟩ := List.mem_map.mp hr
    exact (appliedRow_length C run mask e (hrun e) hmask).2

/-- Witness for C3: two examples, two classes, mask `[true, false]`. -/
theorem evaluate_model_shape_witness :
    ∃ P L,
      evaluateModel (fun n : ℕ => ([n, n + 1], [n, n + 2])) (some [true, false])
          [5, 9] = some (P, L) ∧
      P.length = ([5, 9] : List ℕ).length ∧ L.length = ([5, 9] : List ℕ).length ∧
      (∀ i, P.get? i = (([5, 9] : List ℕ).get? i).map
          (fun e => (appliedRow (fun n : ℕ => ([n, n + 1], [n, n + 2]))
            (some [true, false]) e).1)) ∧
      (∀ i, L.get? i = (([5, 9] : List ℕ).get? i).map
          (fun e => (appliedRow (fun n : ℕ => ([n, n + 1], [n, n + 2]))
            (some [true, false]) e).2)) ∧
      (∀ r ∈ P, r.length = selectedCount 2 (some [true, false])) ∧
      (∀ r ∈ L, r.length = selectedCount 2 (some [true, false])) :=
  evaluate_model_shape 2 (fun n : ℕ => ([n, n + 1], [n, n + 2]))
    (some [true, false]) [5, 9] (by intro e; constructor <;> rfl)
    (by intro m hm; cases hm; rfl) (by decide)

/-- C10. `evaluate_model` requires a non-empty example list: on the empty
list the accumulation step errors (`torch.cat` of an empty list of row
tensors) instead of returning empty tensors, so a successful return implies
at least one example was processed. -/
theorem evaluate_model_requires_nonempty {ε α : Type} (run : ε → List α × List α)
    (mask : Option (List Bool)) :
    evaluateModel run mask ([] : List ε) = none ∧
    ∀ (l : List ε) r, evaluateModel run mask l = some r → l ≠ [] := by
  constructor
  · rfl
  · intro l r h hl
    subst hl
    simp [evaluateModel, runExamples, torchCat] at h

/-- Witness for C10 at a concrete model function and a one-example list. -/
theorem evaluate_model_requires_nonempty_witness :
    evaluateModel (fun _ : ℕ => (([true], [true]) : List Bool × List Bool)) none
        ([] : List ℕ) = none ∧
    ([0] : List ℕ) ≠ [] :=
  ⟨(evaluate_model_requires_nonempty
      (fun _ : ℕ => (([true], [true]) : List Bool × List Bool)) none).1,
   (evaluate_model_requires_nonempty
      (fun _ : ℕ => (([true], [true]) : List Bool × List Bool)) none).2
     [0] ([[true]], [[true]]) rfl⟩

/-- C9. The aligner compares raw `readlines()` lines, newline terminators
included: for the vocabulary files `"x\nCHEBI:2"` (identifier `CHEBI:2` as
final line without trailing newline) and `"CHEBI:2\n"` (the same identifier
newline-terminated), `CHEBI:2` is not placed in `common` — `common` is empty —
and every mask entry of both files is `false`. -/
theorem aligner_newline_sensitivity :
    readlines "x\nCHEBI:2" = ["x\n", "CHEBI:2"] ∧
    readlines "CHEBI:2\n" = ["CHEBI:2\n"] ∧
    common_classes (readlines "x\nCHEBI:2") (readlines "CHEBI:2\n") = [] ∧
    common_classes_mask (readlines "x\nCHEBI:2")
        (common_classes (readlines "x\nCHEBI:2") (readlines "CHEBI:2\n"))
      = [false, false] ∧
    common_classes_mask (readlines "CHEBI:2\n")
        (common_classes (readlines "x\nCHEBI:2") (readlines "CHEBI:2\n"))
      = [false] := by
  refine ⟨?_, ?_, ?_, ?_, ?_⟩ <;> rfl

/-! ## Metrics reporter

Modelled from the spec: the multilabel metric computations of
`chebai.result.classification.print_metrics` (that module is not among the
provided sources; the notebooks only call it).  Per the spec, per class `c`:
`precision_c = TP_c/(TP_c+FP_c)` (0 if no predicted positives),
`recall_c = TP_c/(TP_c+FN_c)` (0 if no actual positives), `F1_c` the harmonic
mean (0 if both are 0); macro-F1 the unweighted mean of per-class F1; micro-F1
from globally aggregated TP/FP/FN; and a report of classes with F1 exactly 0
among classes with at least one positive label.  Predictions and labels are
binarized columns of the `(N, C)` tensors. -/

/-- True positives of one class column. -/
def classTP (preds labels : List Bool) : ℕ :=
  (preds.zip labels).countP (fun x => x.1 && x.2)

/-- False positives of one class column. -/
def classFP (preds labels : List Bool) : ℕ :=
  (preds.zip labels).countP (fun x => x.1 && !x.2)

/-- False negatives of one class column. -/
def classFN (preds labels : List Bool) : ℕ :=
  (preds.zip labels).countP (fun x => !x.1 && x.2)

/-- Modelled from the spec: `precision = TP/(TP+FP)`, 0 when the denominator
is 0 (no predicted positives). -/
def precisionOf (tp fp : ℕ) : ℚ :=
  if tp + fp = 0 then 0 else (tp : ℚ) / (tp + fp)

/-- Modelled from the spec: `recall = TP/(TP+FN)`, 0 when the denominator is
0 (no actual positives). -/
def recallOf (tp fn : ℕ) : ℚ :=
  if tp + fn = 0 then 0 else (tp : ℚ) / (tp + fn)

/-- Modelled from the spec: the harmonic mean of precision and recall, 0 when
both are 0. -/
def f1score (p r : ℚ) : ℚ :=
  if p = 0 ∧ r = 0 then 0 else 2 * p * r / (p + r)

/-- Per-class precision from a class column. -/
def classPrecision (preds labels : List Bool) : ℚ :=
  precisionOf (classTP preds labels) (classFP preds labels)

/-- Per-class recall from a class column. -/
def classRecall (preds labels : List Bool) : ℚ :=
  recallOf (classTP preds labels) (classFN preds labels)

/-- Per-class F1 from a class column. -/
def classF1 (preds labels : List Bool) : ℚ :=
  f1score (classPrecision preds labels) (classRecall preds labels)

/-- Column `c` of an `(N, C)` boolean tensor. -/
def col (c : ℕ) (t : List (List Bool)) : List Bool :=
  t.map (fun r => r.getD c false)

/-- Modelled from the spec: macro-F1, the unweighted mean of per-class F1. -/
def macroF1 (C : ℕ) (preds labels : List (List Bool)) : ℚ :=
  ((List.range C).map (fun c => classF1 (col c preds) (col c labels))).sum / C

/-- Globally aggregated true positives. -/
def microTP (C : ℕ) (preds labels : List (List Bool)) : ℕ :=
  ((List.range C).map (fun c => classTP (col c preds) (col c labels))).sum

/-- Globally aggregated false positives. -/
def microFP (C : ℕ) (preds labels : List (List Bool)) : ℕ :=
  ((List.range C).map (fun c => classFP (col c preds) (col c labels))).sum

/-- Globally aggregated false negatives. -/
def microFN (C : ℕ) (preds labels : List (List Bool)) : ℕ :=
  ((List.range C).map (fun c => classFN (col c preds) (col c labels))).sum

/-- Modelled from the spec: micro-F1 from globally aggregated TP/FP/FN. -/
def microF1 (C : ℕ) (preds labels : List (List Bool)) : ℚ :=
  f1score (precisionOf (microTP C preds labels) (microFP C preds labels))
    (recallOf (microTP C preds labels) (microFN C preds labels))

/-- Modelled from the spec: the report list of classes with F1 exactly 0
among classes with at least one positive ground-truth label. -/
def zeroF1Classes (C : ℕ) (preds labels : List (List Bool)) : List ℕ :=
  (List.range C).filter
    (fun c => decide (classF1 (col c preds) (col c labels) = 0 ∧
                      0 < (col c labels).count true))

/-- For equal-length columns, `TP + FP` is the number of predicted
positives. -/
theorem classTP_add_classFP (p l : List Bool) (h : p.length = l.length) :
    classTP p l + classFP p l = p.count true := by
  induction p generalizing l with
  | nil => rfl
  | cons b t ih =>
      cases l with
      | nil => simp at h
      | cons c w =>
          simp only [List.length_cons, Nat.add_right_cancel_iff] at h
          cases b <;> cases c <;>
            simp [classTP, classFP, List.countP_cons, List.count_cons, ← ih w h] <;>
            omega

/-- For equal-length columns, `TP + FN` is the number of actual positives. -/
theorem classTP_add_classFN (p l : List Bool) (h : p.length = l.length) :
    classTP p l + classFN p l = l.count true := by
  induction p generalizing l with
  | nil =>
      cases l with
      | nil => rfl
      | cons c w => simp at h
  | cons b t ih =>
      cases l with
      | nil => simp at h
      | cons c w =>
          simp only [List.length_cons, Nat.add_right_cancel_iff] at h
          cases b <;> cases c <;>
            simp [classTP, classFN, List.countP_cons, List.count_cons, ← ih w h] <;>
            omega

/-- C5. Per-class metric definitions: for every class column (with the
prediction and label columns of equal length), precision is
`TP/(TP+FP)` with value 0 when there are no predicted positives, recall is
`TP/(TP+FN)` with value 0 when there are no actual positives, and F1 is the
harmonic mean of the two with value 0 when both are 0; in particular a class
with 2 true positives, 1 false positive and 0 false negatives has precision
`2/3`, recall `1` and F1 `4/5 = 0.8`. -/
theorem per_class_metric_definitions (preds labels : List Bool)
    (h : preds.length = labels.length) :
    classPrecision preds labels
      = (if preds.count true = 0 then 0
         else (classTP preds labels : ℚ)
              / (classTP preds labels + classFP preds labels)) ∧
    classRecall preds labels
      = (if labels.count true = 0 then 0
         else (classTP preds labels : ℚ)
              / (classTP preds labels + classFN preds labels)) ∧
    classF1 preds labels
      = (if classPrecision preds labels = 0 ∧ classRecall preds labels = 0
         then 0
         else 2 * classPrecision preds labels * classRecall preds labels
              / (classPrecision preds labels + classRecall preds labels)) ∧
    classTP [true, true, true] [true, true, false] = 2 ∧
    classFP [true, true, true] [true, true, false] = 1 ∧
    classFN [true, true, true] [true, true, false] = 0 ∧
    classPrecision [true, true, true] [true, true, false] = 2 / 3 ∧
    classRecall [true, true, true] [true, true, false] = 1 ∧
    classF1 [true, true, true] [true, true, false] = 4 / 5 := by
  have h1 : classTP [true, true, true] [true, true, false] = 2 := by decide
  have h2 : classFP [true, true, true] [true, true, false] = 1 := by decide
  have h3 : classFN [true, true, true] [true, true, false] = 0 := by decide
  have hp : classPrecision [true, true, true] [true, true, false] = 2 / 3 := by
    unfold classPrecision precisionOf
    rw [h1, h2]
    norm_num
  have hr : classRecall [true, true, true] [true, true, false] = 1 := by
    unfold classRecall recallOf
    rw [h1, h3]
    norm_num
  have hf : classF1 [true, true, true] [true, true, false] = 4 / 5 := by
    unfold classF1 f1score
    rw [hp, hr]
    norm_num
  refine ⟨?_, ?_, rfl, h1, h2, h3, hp, hr, hf⟩
  · unfold classPrecision precisionOf
    rw [classTP_add_classFP preds labels h]
  · unfold classRecall recallOf
    rw [classTP_add_classFN preds labels h]

/-- Witness for C5 at the scenario columns (3 examples, one class). -/
theorem per_class_metric_definitions_witness :
    (classPrecision [true, true, true] [true, true, false]
      = (if ([true, true, true] : List Bool).count true = 0 then 0
         else (classTP [true, true, true] [true, true, false] : ℚ)
              / (classTP [true, true, true] [true, true, false]
                 + classFP [true, true, true] [true, true, false]))) ∧
    (classRecall [true, true, true] [true, true, false]
      = (if ([true, true, false] : List Bool).count true = 0 then 0
         else (classTP [true, true, true] [true, true, false] : ℚ)
              / (classTP [true, true, true] [true, true, false]
                 + classFN [true, true, true] [true, true, false]))) ∧
    (classF1 [true, true, true] [true, true, false]
      = (if classPrecision [true, true, true] [true, true, false] = 0 ∧
            classRecall [true, true, true] [true, true, false] = 0
         then 0
         else 2 * classPrecision [true, true, true] [true, true, false]
                * classRecall [true, true, true] [true, true, false]
              / (classPrecision [true, true, true] [true, true, false]
                 + classRecall [true, true, true] [true, true, false]))) ∧
    classTP [true, true, true] [true, true, false] = 2 ∧
    classFP [true, true, true] [true, true, false] = 1 ∧
    classFN [true, true, true] [true, true, false] = 0 ∧
    classPrecision [true, true, true] [true, true, false] = 2 / 3 ∧
    classRecall [true, true, true] [true, true, false] = 1 ∧
    classF1 [true, true, true] [true, true, false] = 4 / 5 :=
  per_class_metric_definitions [true, true, true] [true, true, false] rfl

/-- Feeding a column to itself: every positive is a true positive. -/
theorem classTP_self (v : List Bool) : classTP v v = v.count true := by
  induction v with
  | nil => rfl
  | cons b t ih =>
      cases b <;> simp [classTP, List.countP_cons, List.count_cons, ← ih]

/-- Feeding a column to itself: no false positives. -/
theorem classFP_self (v : List Bool) : classFP v v = 0 := by
  induction v with
  | nil => rfl
  | cons b t ih => cases b <;> simpa [classFP, List.countP_cons] using ih

/-- Feeding a column to itself: no false negatives. -/
theorem classFN_self (v : List Bool) : classFN v v = 0 := by
  induction v with
  | nil => rfl
  | cons b t ih => cases b <;> simpa [classFN, List.countP_cons] using ih

/-- A class with at least one positive scores F1 = 1 on perfect
predictions. -/
theorem classF1_self (v : List Bool) (hv : 0 < v.count true) :
    classF1 v v = 1 := by
  have htp : classTP v v = v.count true := classTP_self v
  have hne : ((v.count true : ℚ)) ≠ 0 := by
    exact_mod_cast Nat.pos_iff_ne_zero.mp hv
  have hp : classPrecision v v = 1 := by
    unfold classPrecision precisionOf
    rw [htp, classFP_self v, if_neg (by omega)]
    push_cast
    rw [add_zero]
    exact div_self hne
  have hr : classRecall v v = 1 := by
    unfold classRecall recallOf
    rw [htp, classFN_self v, if_neg (by omega)]
    push_cast
    rw [add_zero]
    exact div_self hne
  unfold classF1 f1score
  rw [hp, hr]
  norm_num

/-- A column has a positive iff some row's entry at that class is `true`. -/
theorem count_true_col_pos (c : ℕ) (t : List (List Bool)) :
    0 < (col c t).count true ↔ ∃ r ∈ t, r.getD c false = true := by
  rw [List.count_pos_iff]
  unfold col
  simp

/-- C6 counterexample: for the 0-class label tensor `[[]]` (one example, no
classes) the hypothesis "every class has at least one positive label" holds
vacuously, yet perfect predictions give macro-F1 = micro-F1 = 0, not 1. -/
theorem perfect_predictions_zero_classes_cex :
    macroF1 0 [[]] [[]] ≠ 1 ∧ microF1 0 [[]] [[]] ≠ 1 := by
  constructor
  · intro hmac
    rw [show macroF1 0 [[]] [[]] = 0 by unfold macroF1; norm_num] at hmac
    norm_num at hmac
  · intro hmic
    rw [show microF1 0 [[]] [[]] = 0 by
        unfold microF1 microTP microFP microFN f1score precisionOf recallOf
        norm_num] at hmic
    norm_num at hmic

/-- C6 (amended). For every label tensor with at least one class, feeding the
labels themselves as predictions yields macro-F1 = micro-F1 = 1 when every
class has at least one positive label. -/
theorem perfect_predictions_f1_one (C : ℕ) (labels : List (List Bool))
    (hC : 0 < C)
    (hpos : ∀ c < C, ∃ r ∈ labels, r.getD c false = true) :
    macroF1 C labels labels = 1 ∧ microF1 C labels labels = 1 := by
  have hcol : ∀ c < C, 0 < (col c labels).count true := by
    intro c hc
    exact (count_true_col_pos c labels).mpr (hpos c hc)
  constructor
  · unfold macroF1
    have hmap : (List.range C).map
          (fun c => classF1 (col c labels) (col c labels))
        = List.replicate C (1 : ℚ) := by
      rw [List.eq_replicate_iff]
      refine ⟨by simp, ?_⟩
      intro b hb
      obtain ⟨c, hc, rfl⟩ := List.mem_map.mp hb
      exact classF1_self _ (hcol c (List.mem_range.mp hc))
    rw [hmap, List.sum_replicate, nsmul_eq_mul, mul_one]
    have : ((C : ℚ)) ≠ 0 := by
      exact_mod_cast Nat.pos_iff_ne_zero.mp hC
    field_simp
  · have hTPpos : 0 < microTP C labels labels := by
      unfold microTP
      have h0 : classTP (col 0 labels) (col 0 labels)
          ∈ (List.range C).map (fun c => classTP (col c labels) (col c labels)) :=
        List.mem_map.mpr ⟨0, List.mem_range.mpr hC, rfl⟩
      calc 0 < classTP (col 0 labels) (col 0 labels) := by
                rw [classTP_self]
                exact hcol 0 hC
           _ ≤ _ := List.single_le_sum (by intro x hx; omega) _ h0
    have hFP : microFP C labels labels = 0 := by
      unfold microFP
      rw [List.sum_eq_zero]
      intro x hx
      obtain ⟨c, _, rfl⟩ := List.mem_map.mp hx
      exact classFP_self _
    have hFN : microFN C labels labels = 0 := by
      unfold microFN
      rw [List.sum_eq_zero]
      intro x hx
      obtain ⟨c, _, rfl⟩ := List.mem_map.mp hx
      exact classFN_self _
    have hcast : ((microTP C labels labels : ℚ)) ≠ 0 := by
      exact_mod_cast Nat.pos_iff_ne_zero.mp hTPpos
    have hprec : precisionOf (microTP C labels labels) 0 = 1 := by
      unfold precisionOf
      rw [if_neg (by omega)]
      push_cast
      rw [add_zero]
      exact div_self hcast
    have hrec : recallOf (microTP C labels labels) 0 = 1 := by
      unfold recallOf
      rw [if_neg (by omega)]
      push_cast
      rw [add_zero]
      exact div_self hcast
    unfold microF1
    rw [hFP, hFN, hprec, hrec]
    unfold f1score
    norm_num

/-- Witness for C6: one class, two examples, labels `[[true], [false]]`. -/
theorem perfect_predictions_f1_one_witness :
    macroF1 1 [[true], [false]] [[true], [false]] = 1 ∧
    microF1 1 [[true], [false]] [[true], [false]] = 1 :=
  perfect_predictions_f1_one 1 [[true], [false]] (by decide)
    (by
      intro c hc
      interval_cases c
      exact ⟨[true], by decide⟩)

/-- C7. Zero-F1 report exclusion: every class in the zero-F1 report list has
at least one positive ground-truth label, and a class with zero actual
positives (in particular one with zero predicted positives as well) is
excluded from the list. -/
theorem zero_f1_report_exclusion (C : ℕ) (preds labels : List (List Bool))
    (c : ℕ) :
    (c ∈ zeroF1Classes C preds labels → 0 < (col c labels).count true) ∧
    (c < C → (col c labels).count true = 0 → (col c preds).count true = 0 →
      c ∉ zeroF1Classes C preds labels) := by
  constructor
  · intro hc
    have hd := List.of_mem_filter hc
    rw [decide_eq_true_eq] at hd
    exact hd.2
  · intro _ h0 _ hmem
    have hd := List.of_mem_filter hmem
    rw [decide_eq_true_eq] at hd
    omega

/-- Witness for C7: the class with a positive label but no predicted
positives is reported; the class with neither labels nor predictions is
excluded. -/
theorem zero_f1_report_exclusion_witness :
    0 < (col 0 [[true, false]]).count true ∧
    1 ∉ zeroF1Classes 2 [[false, false]] [[true, false]] :=
  ⟨(zero_f1_report_exclusion 2 [[false, false]] [[true, false]] 0).1
     (by
       have ht : classTP (col 0 [[false, false]]) (col 0 [[true, false]]) = 0 :=
         rfl
       have hf : classFP (col 0 [[false, false]]) (col 0 [[true, false]]) = 0 :=
         rfl
       have hn : classFN (col 0 [[false, false]]) (col 0 [[true, false]]) = 1 :=
         rfl
       have hprec : classPrecision (col 0 [[false, false]])
           (col 0 [[true, false]]) = 0 := by
         unfold classPrecision precisionOf
         rw [ht, hf]
         norm_num
       have hrec : classRecall (col 0 [[false, false]])
           (col 0 [[true, false]]) = 0 := by
         unfold classRecall recallOf
         rw [ht, hn]
         norm_num
       have hF1 : classF1 (col 0 [[false, false]]) (col 0 [[true, false]]) = 0 := by
         unfold classF1 f1score
         rw [hprec, hrec]
         norm_num
       unfold zeroF1Classes
       rw [List.mem_filter]
       refine ⟨by decide, ?_⟩
       rw [decide_eq_true_eq]
       exact ⟨hF1, by decide⟩),
   (zero_f1_report_exclusion 2 [[false, false]] [[true, false]] 1).2
     (by decide) (by decide) (by decide)⟩

/-! ## CI constant verification (`.github/workflows` "Verify constants" step)

```sh
if grep -q "$file_name" changed_files.txt; then
  exp_embedding_offset="10"; exp_cls_token="2"
  exp_padding_token_index="0"; exp_mask_token_index="1"
  if [ "$E_EMBEDDING_OFFSET" != "$exp_embedding_offset" ]; then
    echo "EMBEDDING_OFFSET ($E_EMBEDDING_OFFSET) does not match expected value ($exp_embedding_offset)!"
    exit 1
  fi
  ... (CLS_TOKEN, PADDING_TOKEN_INDEX, MASK_TOKEN_INDEX likewise)
else
  echo "$file_name not found in changed_files.txt; skipping check."
fi
```
The exported constant values arrive as strings (via `constants.json` and
environment variables); `Except.error` carries the echoed diagnostic,
`Except.ok` is a zero exit. -/

/-- The diagnostic line echoed for a mismatching constant. -/
def mismatchMsg (cname actual expected : String) : String :=
  cname ++ " (" ++ actual ++ ") does not match expected value (" ++ expected ++ ")!"

/-- The "Verify constants" step: when `reader.py` is among the changed files,
compare the four exported constants against their expected values in order,
exiting non-zero with a diagnostic at the first mismatch; otherwise skip. -/
def verifyConstants (readerChanged : Bool) (eo cls pad msk : String) :
    Except String Unit :=
  if readerChanged then
    if eo ≠ "10" then Except.error (mismatchMsg "EMBEDDING_OFFSET" eo "10")
    else if cls ≠ "2" then Except.error (mismatchMsg "CLS_TOKEN" cls "2")
    else if pad ≠ "0" then
      Except.error (mismatchMsg "PADDING_TOKEN_INDEX" pad "0")
    else if msk ≠ "1" then
      Except.error (mismatchMsg "MASK_TOKEN_INDEX" msk "1")
    else Except.ok ()
  else Except.ok ()

/-- C8. CI constant verification: when `reader.py` changed, the step succeeds
iff the exported `EMBEDDING_OFFSET`, `CLS_TOKEN`, `PADDING_TOKEN_INDEX` and
`MASK_TOKEN_INDEX` equal the expected `10`, `2`, `0`, `1`; any mismatching
constant makes it exit non-zero, after a diagnostic naming that constant's
actual and expected value (the first mismatch in check order is reported);
when `reader.py` did not change, the check is skipped and succeeds. -/
theorem verify_constants_behavior (eo cls pad msk : String) :
    (verifyConstants false eo cls pad msk = Except.ok ()) ∧
    (verifyConstants true eo cls pad msk = Except.ok ()
      ↔ eo = "10" ∧ cls = "2" ∧ pad = "0" ∧ msk = "1") ∧
    (eo ≠ "10" → verifyConstants true eo cls pad msk
        = Except.error (mismatchMsg "EMBEDDING_OFFSET" eo "10")) ∧
    (eo = "10" → cls ≠ "2" → verifyConstants true eo cls pad msk
        = Except.error (mismatchMsg "CLS_TOKEN" cls "2")) ∧
    (eo = "10" → cls = "2" → pad ≠ "0" → verifyConstants true eo cls pad msk
        = Except.error (mismatchMsg "PADDING_TOKEN_INDEX" pad "0")) ∧
    (eo = "10" → cls = "2" → pad = "0" → msk ≠ "1" →
      verifyConstants true eo cls pad msk
        = Except.error (mismatchMsg "MASK_TOKEN_INDEX" msk "1")) := by
  refine ⟨rfl, ?_, ?_, ?_, ?_, ?_⟩
  · unfold verifyConstants
    split_ifs with h1 h2 h3 h4 <;> simp_all
  · intro h1
    unfold verifyConstants
    rw [if_pos rfl, if_pos h1]
  · intro h1 h2
    unfold verifyConstants
    rw [if_pos rfl, if_neg (by simp [h1]), if_pos h2]
  · intro h1 h2 h3
    unfold verifyConstants
    rw [if_pos rfl, if_neg (by simp [h1]), if_neg (by simp [h2]), if_pos h3]
  · intro h1 h2 h3 h4
    unfold verifyConstants
    rw [if_pos rfl, if_neg (by simp [h1]), if_neg (by simp [h2]),
        if_neg (by simp [h3]), if_pos h4]

/-- Witness for C8: the all-matching input succeeds; each single mismatch
yields the corresponding diagnostic. -/
theorem verify_constants_behavior_witness :
    verifyConstants true "10" "2" "0" "1" = Except.ok () ∧
    verifyConstants true "11" "2" "0" "1"
      = Except.error (mismatchMsg "EMBEDDING_OFFSET" "11" "10") ∧
    verifyConstants true "10" "3" "0" "1"
      = Except.error (mismatchMsg "CLS_TOKEN" "3" "2") ∧
    verifyConstants true "10" "2" "9" "1"
      = Except.error (mismatchMsg "PADDING_TOKEN_INDEX" "9" "0") ∧
    verifyConstants true "10" "2" "0" "7"
      = Except.error (mismatchMsg "MASK_TOKEN_INDEX" "7" "1") :=
  ⟨(verify_constants_behavior "10" "2" "0" "1").2.1.mpr
     ⟨rfl, rfl, rfl, rfl⟩,
   (verify_constants_behavior "11" "2" "0" "1").2.2.1 (by decide),
   (verify_constants_behavior "10" "3" "0" "1").2.2.2.1 rfl (by decide),
   (verify_constants_behavior "10" "2" "9" "1").2.2.2.2.1 rfl rfl (by decide),
   (verify_constants_behavior "10" "2" "0" "7").2.2.2.2.2 rfl rfl rfl
     (by decide)⟩

end ChebaiEval
